import Mathlib

/-!
Shallow embedding of `src/main.py`, a FastAPI task-tracking CRUD service
backed by a single SQL table `tasks` with columns `id` (integer primary key,
auto-assigned), `title` (string) and `status` (string).

The database is modelled as a `Store`: the list of persisted rows in
insertion (primary-key) order together with the next id the storage layer
will assign.  Each HTTP handler becomes a pure function from a store (and
request data) to the updated store and an `Outcome`: a successful body, an
`HTTPException` raised to the framework (`httpError code detail`), or an
exception that the handler does not catch (`unhandled`).  A possible
storage-layer exception during the mutating statement/commit is injected
through a `fault : Option String` argument (`none` = the database call
succeeds, `some msg` = it raises an exception with message `msg`).
-/

/-- The `TaskStatus` string enumeration of `main.py`. -/
inductive TaskStatus where
  | assigned
  | inprogress
  | completed
deriving DecidableEq, Repr

/-- `.value` of a `TaskStatus` member: the string stored in the database. -/
def TaskStatus.value : TaskStatus → String
  | .assigned => "assigned"
  | .inprogress => "inprogress"
  | .completed => "completed"

/-- Pydantic coercion of an incoming string into `TaskStatus`:
succeeds exactly on the three enumeration values. -/
def TaskStatus.ofString (s : String) : Option TaskStatus :=
  if s = "assigned" then some .assigned
  else if s = "inprogress" then some .inprogress
  else if s = "completed" then some .completed
  else none

/-- One row of the `tasks` table (`TaskModel` in `main.py`).  The `status`
column is a plain string: the database enforces no enumeration constraint. -/
structure TaskModel where
  id : Nat
  title : String
  status : String
deriving DecidableEq, Repr

/-- `TaskCreateSchema`: the parsed request body for create and update. -/
structure TaskCreateSchema where
  title : String
  status : TaskStatus
deriving DecidableEq, Repr

/-- Pydantic validation of a request body `{title, status?}`: an omitted
status defaults to `assigned`; a status string outside the enumeration makes
parsing fail (FastAPI then rejects the request before the handler runs). -/
def parseTaskCreate (title : String) (statusStr : Option String) :
    Option TaskCreateSchema :=
  match statusStr with
  | none => some { title := title, status := TaskStatus.assigned }
  | some s => (TaskStatus.ofString s).map fun st => { title := title, status := st }

/-- The database state: rows in insertion (primary-key) order, plus the next
primary-key value the storage layer will assign. -/
structure Store where
  tasks : List TaskModel
  nextId : Nat
deriving DecidableEq, Repr

/-- Result of one handler call.  `httpError` is an `HTTPException` raised to
(or returned by) the framework; `unhandled` is an exception the handler let
propagate. -/
inductive Outcome (α : Type) where
  | ok (a : α)
  | httpError (code : Nat) (detail : String)
  | unhandled (detail : String)
deriving DecidableEq, Repr

/-- `db.query(TaskModel).filter(TaskModel.id == task_id).first()`:
the first row whose `id` column equals `task_id`. -/
def findTask : List TaskModel → Nat → Option TaskModel
  | [], _ => none
  | t :: rest, tid => if t.id = tid then some t else findTask rest tid

/-- In-place mutation of the row SQLAlchemy loaded: the first row whose id
matches is replaced, the rest of the table is untouched. -/
def replaceFirst : List TaskModel → Nat → TaskModel → List TaskModel
  | [], _, _ => []
  | t :: rest, tid, v =>
      if t.id = tid then v :: rest else t :: replaceFirst rest tid v

/-- `db.delete(task)`: the first row whose id matches is removed. -/
def removeFirst : List TaskModel → Nat → List TaskModel
  | [], _ => []
  | t :: rest, tid => if t.id = tid then rest else t :: removeFirst rest tid

/-- `POST /add_task` handler body (`create_task` in `main.py`): insert a row
with a fresh id, commit; on a storage exception, roll back and raise
`HTTPException(500, ...)`. -/
def create_task (store : Store) (task : TaskCreateSchema)
    (fault : Option String) : Store × Outcome TaskModel :=
  match fault with
  | some msg =>
      (store, .httpError 500 ("An error occurred while creating the task: " ++ msg))
  | none =>
      let db_task : TaskModel :=
        { id := store.nextId, title := task.title, status := task.status.value }
      ({ tasks := store.tasks ++ [db_task], nextId := store.nextId + 1 },
       .ok db_task)

/-- `GET /get_tasks` (`read_tasks` in `main.py`):
`db.query(TaskModel).offset(skip).limit(limit).all()`. -/
def read_tasks (store : Store) (skip limit : Nat) : List TaskModel :=
  (store.tasks.drop skip).take limit

/-- `read_tasks` with both query parameters omitted: FastAPI fills in the
declared defaults `skip = 0`, `limit = 100`. -/
def read_tasks_default (store : Store) : List TaskModel :=
  read_tasks store 0 100

/-- `GET /tasks/{task_id}` (`read_task` in `main.py`): return the matching
row, or raise `HTTPException(404)` outside of any try block. -/
def read_task (store : Store) (task_id : Nat) : Outcome TaskModel :=
  match findTask store.tasks task_id with
  | none => .httpError 404 "Task not found"
  | some t => .ok t

/-- `PUT /task/{task_id}` handler body (`update_task` in `main.py`).  The
whole body, including the `raise HTTPException(404)` for a missing row, sits
inside `try: ... except Exception as e:`, which rolls back and raises
`HTTPException(500, ...)` carrying `str(e)`.  So the 404 raised for a
missing row is itself caught and resurfaced as a 500. -/
def update_task (store : Store) (task_id : Nat) (task : TaskCreateSchema)
    (fault : Option String) : Store × Outcome TaskModel :=
  match findTask store.tasks task_id with
  | none =>
      (store,
       .httpError 500
         "An error occurred while updating the task: 404: Task not found")
  | some db_task =>
      match fault with
      | some msg =>
          (store,
           .httpError 500 ("An error occurred while updating the task: " ++ msg))
      | none =>
          let updated : TaskModel :=
            { id := db_task.id, title := task.title, status := task.status.value }
          ({ store with tasks := replaceFirst store.tasks task_id updated },
           .ok updated)

/-- `DELETE /task/{task_id}` (`delete_task` in `main.py`): no try/except.
A missing row raises `HTTPException(404)` straight to the framework; a
storage exception during `db.delete`/`db.commit` propagates uncaught. -/
def delete_task (store : Store) (task_id : Nat)
    (fault : Option String) : Store × Outcome TaskModel :=
  match findTask store.tasks task_id with
  | none => (store, .httpError 404 "Task not found")
  | some task =>
      match fault with
      | some msg => (store, .unhandled msg)
      | none =>
          ({ store with tasks := removeFirst store.tasks task_id }, .ok task)

/-- `POST /add_task` at the framework boundary: pydantic validation of the
raw body happens before any storage interaction; an invalid body is rejected
with FastAPI's 422 and the handler never runs. -/
def post_add_task (store : Store) (title : String) (statusStr : Option String)
    (fault : Option String) : Store × Outcome TaskModel :=
  match parseTaskCreate title statusStr with
  | none => (store, .httpError 422 "value is not a valid enumeration member")
  | some t => create_task store t fault

/-- `PUT /task/{task_id}` at the framework boundary, with the same pydantic
validation as create. -/
def put_task (store : Store) (task_id : Nat) (title : String)
    (statusStr : Option String) (fault : Option String) :
    Store × Outcome TaskModel :=
  match parseTaskCreate title statusStr with
  | none => (store, .httpError 422 "value is not a valid enumeration member")
  | some t => update_task store task_id t fault

/-- One client-visible request, with its injected storage fault. -/
inductive Op where
  | create (title : String) (statusStr : Option String) (fault : Option String)
  | list (skip limit : Nat)
  | get (id : Nat)
  | update (id : Nat) (title : String) (statusStr : Option String)
      (fault : Option String)
  | delete (id : Nat) (fault : Option String)
deriving DecidableEq, Repr

/-- The store left behind by one request. -/
def stepStore (store : Store) : Op → Store
  | .create title s f => (post_add_task store title s f).1
  | .list _ _ => store
  | .get _ => store
  | .update i t s f => (put_task store i t s f).1
  | .delete i f => (delete_task store i f).1

/-- A status string is a member of the three-value enumeration. -/
abbrev validStatus (s : String) : Prop :=
  s = "assigned" ∨ s = "inprogress" ∨ s = "completed"

/-- Every persisted row's status column holds an enumeration value. -/
abbrev StatusInv (store : Store) : Prop :=
  ∀ t ∈ store.tasks, validStatus t.status

/-- Every persisted row's id is below the next id the storage layer will
assign (true of a fresh auto-increment table and preserved by every
operation, since ids are never reassigned). -/
abbrev IdsBounded (store : Store) : Prop :=
  ∀ t ∈ store.tasks, t.id < store.nextId

/-- Primary-key uniqueness: no two rows share an id. -/
abbrev UniqueIds (store : Store) : Prop :=
  store.tasks.Pairwise fun a b => a.id ≠ b.id

/-! ### Lemmas about the row-level operations -/

theorem findTask_mem {l : List TaskModel} {tid : Nat} {t : TaskModel}
    (h : findTask l tid = some t) : t ∈ l := by
  induction l with
  | nil => simp [findTask] at h
  | cons a rest ih =>
      by_cases ha : a.id = tid
      · simp [findTask, ha] at h
        simp [h]
      · simp [findTask, ha] at h
        exact List.mem_cons_of_mem _ (ih h)

theorem findTask_id {l : List TaskModel} {tid : Nat} {t : TaskModel}
    (h : findTask l tid = some t) : t.id = tid := by
  induction l with
  | nil => simp [findTask] at h
  | cons a rest ih =>
      by_cases ha : a.id = tid
      · simp [findTask, ha] at h
        simp [← h, ha]
      · simp [findTask, ha] at h
        exact ih h

theorem findTask_eq_none_iff {l : List TaskModel} {tid : Nat} :
    findTask l tid = none ↔ ∀ t ∈ l, t.id ≠ tid := by
  induction l with
  | nil => simp [findTask]
  | cons a rest ih =>
      by_cases ha : a.id = tid
      · simp [findTask, ha]
      · simp [findTask, ha, ih]

theorem mem_replaceFirst {l : List TaskModel} {tid : Nat} {v u : TaskModel}
    (h : u ∈ replaceFirst l tid v) : u ∈ l ∨ u = v := by
  induction l with
  | nil => simp [replaceFirst] at h
  | cons a rest ih =>
      by_cases ha : a.id = tid
      · simp [replaceFirst, ha] at h
        rcases h with h | h
        · exact Or.inr h
        · exact Or.inl (List.mem_cons_of_mem _ h)
      · simp [replaceFirst, ha] at h
        rcases h with h | h
        · exact Or.inl (by simp [h])
        · rcases ih h with h' | h'
          · exact Or.inl (List.mem_cons_of_mem _ h')
          · exact Or.inr h'

theorem mem_replaceFirst_of_ne {l : List TaskModel} {tid : Nat} {v u : TaskModel}
    (hu : u.id ≠ tid) (h : u ∈ l) : u ∈ replaceFirst l tid v := by
  induction l with
  | nil => simp at h
  | cons a rest ih =>
      by_cases ha : a.id = tid
      · simp [replaceFirst, ha]
        rcases List.mem_cons.mp h with h' | h'
        · exact absurd (h' ▸ ha) hu
        · exact Or.inr h'
      · simp [replaceFirst, ha]
        rcases List.mem_cons.mp h with h' | h'
        · exact Or.inl h'
        · exact Or.inr (ih h')

theorem mem_of_mem_replaceFirst {l : List TaskModel} {tid : Nat} {v u : TaskModel}
    (hv : v.id = tid) (hu : u.id ≠ tid) (h : u ∈ replaceFirst l tid v) : u ∈ l := by
  rcases mem_replaceFirst h with h' | h'
  · exact h'
  · exact absurd (h' ▸ hv) hu

theorem findTask_replaceFirst {l : List TaskModel} {tid : Nat} {v : TaskModel}
    (hv : v.id = tid) (h : (findTask l tid).isSome) :
    findTask (replaceFirst l tid v) tid = some v := by
  induction l with
  | nil => simp [findTask] at h
  | cons a rest ih =>
      by_cases ha : a.id = tid
      · simp [replaceFirst, ha, findTask, hv]
      · simp [findTask, ha] at h
        simp [replaceFirst, ha, findTask, ih h]

theorem mem_of_mem_removeFirst {l : List TaskModel} {tid : Nat} {u : TaskModel}
    (h : u ∈ removeFirst l tid) : u ∈ l := by
  induction l with
  | nil => simp [removeFirst] at h
  | cons a rest ih =>
      by_cases ha : a.id = tid
      · simp [removeFirst, ha] at h
        exact List.mem_cons_of_mem _ h
      · simp [removeFirst, ha] at h
        rcases h with h | h
        · simp [h]
        · exact List.mem_cons_of_mem _ (ih h)

theorem mem_removeFirst_of_ne {l : List TaskModel} {tid : Nat} {u : TaskModel}
    (hu : u.id ≠ tid) (h : u ∈ l) : u ∈ removeFirst l tid := by
  induction l with
  | nil => simp at h
  | cons a rest ih =>
      by_cases ha : a.id = tid
      · simp [removeFirst, ha]
        rcases List.mem_cons.mp h with h' | h'
        · exact absurd (h' ▸ ha) hu
        · exact h'
      · simp [removeFirst, ha]
        rcases List.mem_cons.mp h with h' | h'
        · exact Or.inl h'
        · exact Or.inr (ih h')

theorem findTask_removeFirst {l : List TaskModel} {tid : Nat}
    (hu : l.Pairwise fun a b => a.id ≠ b.id) :
    findTask (removeFirst l tid) tid = none := by
  induction l with
  | nil => simp [removeFirst, findTask]
  | cons a rest ih =>
      rcases List.pairwise_cons.mp hu with ⟨ha, hrest⟩
      by_cases h : a.id = tid
      · simp [removeFirst, h]
        exact findTask_eq_none_iff.mpr fun t ht => (h ▸ ha t ht).symm
      · simp [removeFirst, h, findTask, ih hrest]

theorem validStatus_value (st : TaskStatus) : validStatus st.value := by
  cases st <;> simp [TaskStatus.value, validStatus]

/-! ### Claim theorems -/

/-- Claim C1 (evaluation at the failing input): a PUT on an id with no
matching row does NOT produce a 404-equivalent distinct from generic server
failures.  The `raise HTTPException(404)` sits inside the handler's
`try: ... except Exception:` block, so it is caught, rolled back and
resurfaced as a generic 500 error.  The store is indeed left unchanged. -/
theorem C1_update_missing_task_returns_500 :
    update_task { tasks := [], nextId := 1 } 1
        { title := "x", status := TaskStatus.assigned } none =
      ({ tasks := [], nextId := 1 },
       Outcome.httpError 500
         "An error occurred while updating the task: 404: Task not found") := rfl

/-- Claim C2: a POST /add_task with a valid title and an omitted status
persists a task with status "assigned" and a freshly assigned id that no
previously persisted task uses, and returns that full record. -/
theorem C2_create_assigns_fresh_id_and_default_status
    (store : Store) (title : String) (hb : IdsBounded store) :
    (post_add_task store title none none).2 =
        Outcome.ok { id := store.nextId, title := title, status := "assigned" } ∧
    (post_add_task store title none none).1.tasks =
        store.tasks ++ [{ id := store.nextId, title := title, status := "assigned" }] ∧
    ∀ u ∈ store.tasks, u.id ≠ store.nextId :=
  ⟨rfl, rfl, fun u hu => Nat.ne_of_lt (hb u hu)⟩

theorem C2_witness :
    IdsBounded { tasks := [{ id := 1, title := "a", status := "completed" }], nextId := 2 } ∧
    ((post_add_task { tasks := [{ id := 1, title := "a", status := "completed" }], nextId := 2 }
        "write spec" none none).2 =
        Outcome.ok { id := 2, title := "write spec", status := "assigned" } ∧
     (post_add_task { tasks := [{ id := 1, title := "a", status := "completed" }], nextId := 2 }
        "write spec" none none).1.tasks =
        [{ id := 1, title := "a", status := "completed" }] ++
          [{ id := 2, title := "write spec", status := "assigned" }] ∧
     ∀ u ∈ [({ id := 1, title := "a", status := "completed" } : TaskModel)], u.id ≠ 2) :=
  ⟨by decide, C2_create_assigns_fresh_id_and_default_status _ "write spec" (by decide)⟩

/-- Claim C3: updating an existing id with body `{title := t, status := s}`
overwrites both fields unconditionally, keeps the id, returns the updated
record, and a subsequent GET by that id returns exactly the same record. -/
theorem C3_update_is_full_replacement
    (store : Store) (tid : Nat) (t : String) (s : TaskStatus) (task0 : TaskModel)
    (h : findTask store.tasks tid = some task0) :
    (update_task store tid { title := t, status := s } none).2 =
        Outcome.ok { id := tid, title := t, status := s.value } ∧
    read_task (update_task store tid { title := t, status := s } none).1 tid =
        Outcome.ok { id := tid, title := t, status := s.value } := by
  have hid : task0.id = tid := findTask_id h
  have hsome : (findTask store.tasks tid).isSome := by simp [h]
  constructor
  · simp [update_task, h, hid]
  · have hrepl :
        findTask (replaceFirst store.tasks tid
          { id := task0.id, title := t, status := s.value }) tid =
          some { id := task0.id, title := t, status := s.value } :=
      findTask_replaceFirst hid hsome
    rw [hid] at hrepl
    simp [update_task, h, read_task, hid, hrepl]

theorem C3_witness :
    (update_task { tasks := [{ id := 1, title := "old", status := "assigned" }], nextId := 2 } 1
        { title := "X", status := TaskStatus.completed } none).2 =
      Outcome.ok { id := 1, title := "X", status := "completed" } ∧
    read_task
      (update_task { tasks := [{ id := 1, title := "old", status := "assigned" }], nextId := 2 } 1
        { title := "X", status := TaskStatus.completed } none).1 1 =
      Outcome.ok { id := 1, title := "X", status := "completed" } :=
  C3_update_is_full_replacement _ 1 "X" TaskStatus.completed
    { id := 1, title := "old", status := "assigned" } rfl

/-- Claim C4: deleting an existing id returns the deleted record's
pre-deletion id, title and status, and a subsequent GET for that id
returns 404 not-found. -/
theorem C4_delete_returns_last_state_then_404
    (store : Store) (tid : Nat) (task0 : TaskModel)
    (hu : UniqueIds store) (h : findTask store.tasks tid = some task0) :
    delete_task store tid none =
      ({ store with tasks := removeFirst store.tasks tid }, Outcome.ok task0) ∧
    read_task (delete_task store tid none).1 tid =
      Outcome.httpError 404 "Task not found" := by
  constructor
  · simp [delete_task, h]
  · simp [delete_task, h, read_task, findTask_removeFirst hu]

theorem C4_witness :
    delete_task { tasks := [{ id := 1, title := "a", status := "inprogress" }], nextId := 2 } 1 none =
      ({ tasks := [], nextId := 2 }, Outcome.ok { id := 1, title := "a", status := "inprogress" }) ∧
    read_task
      (delete_task { tasks := [{ id := 1, title := "a", status := "inprogress" }], nextId := 2 } 1 none).1
      1 = Outcome.httpError 404 "Task not found" :=
  C4_delete_returns_last_state_then_404 _ 1
    { id := 1, title := "a", status := "inprogress" } (by decide) rfl

/-- Claim C5: GET /tasks/{task_id} returns the matching task when a row with
that id exists, and returns the 404 not-found error if and only if no row
matches. -/
theorem C5_get_task_found_or_404 (store : Store) (tid : Nat) :
    (∀ t, findTask store.tasks tid = some t → read_task store tid = Outcome.ok t) ∧
    (read_task store tid = Outcome.httpError 404 "Task not found" ↔
      ∀ t ∈ store.tasks, t.id ≠ tid) := by
  constructor
  · intro t ht
    simp [read_task, ht]
  · rw [← findTask_eq_none_iff]
    cases hf : findTask store.tasks tid <;> simp [read_task, hf]

theorem C5_witness :
    read_task { tasks := [{ id := 1, title := "a", status := "assigned" }], nextId := 2 } 1 =
      Outcome.ok { id := 1, title := "a", status := "assigned" } ∧
    read_task { tasks := [{ id := 1, title := "a", status := "assigned" }], nextId := 2 } 2 =
      Outcome.httpError 404 "Task not found" :=
  ⟨(C5_get_task_found_or_404 _ 1).1 _ rfl,
   (C5_get_task_found_or_404 _ 2).2.mpr (by decide)⟩

/-- Claim C6: a create or update request whose status string is outside
{assigned, inprogress, completed} fails pydantic validation and is rejected
as a client error (422) before any storage interaction; the store is
returned unchanged, whatever the storage layer would have done. -/
theorem C6_invalid_status_rejected_before_storage
    (store : Store) (tid : Nat) (title s : String) (fault : Option String)
    (h1 : s ≠ "assigned") (h2 : s ≠ "inprogress") (h3 : s ≠ "completed") :
    post_add_task store title (some s) fault =
      (store, Outcome.httpError 422 "value is not a valid enumeration member") ∧
    put_task store tid title (some s) fault =
      (store, Outcome.httpError 422 "value is not a valid enumeration member") := by
  have hnone : TaskStatus.ofString s = none := by
    simp [TaskStatus.ofString, h1, h2, h3]
  constructor <;> simp [post_add_task, put_task, parseTaskCreate, hnone]

theorem C6_witness :
    "done" ≠ "assigned" ∧
    (post_add_task { tasks := [], nextId := 1 } "t" (some "done") none =
      ({ tasks := [], nextId := 1 },
       Outcome.httpError 422 "value is not a valid enumeration member") ∧
     put_task { tasks := [], nextId := 1 } 1 "t" (some "done") none =
      ({ tasks := [], nextId := 1 },
       Outcome.httpError 422 "value is not a valid enumeration member")) :=
  ⟨by decide,
   C6_invalid_status_rejected_before_storage _ 1 "t" "done" none
     (by decide) (by decide) (by decide)⟩

/-- Claim C7: every operation (create, list, get, update, delete) preserves
the invariant that the status column of every persisted task is one of
"assigned", "inprogress", "completed" — the API boundary only ever writes
`TaskStatus` values into the string column. -/
theorem C7_status_enumeration_invariant
    (store : Store) (op : Op) (hinv : StatusInv store) :
    StatusInv (stepStore store op) := by
  cases op with
  | list skp lim => exact hinv
  | get i => exact hinv
  | create title sOpt f =>
      cases hp : parseTaskCreate title sOpt with
      | none => simpa [stepStore, post_add_task, hp] using hinv
      | some tc =>
          cases f with
          | some msg => simpa [stepStore, post_add_task, hp, create_task] using hinv
          | none =>
              intro t ht
              simp only [stepStore, post_add_task, hp, create_task] at ht
              rcases List.mem_append.mp ht with h' | h'
              · exact hinv t h'
              · rw [List.mem_singleton.mp h']
                exact validStatus_value tc.status
  | update i title sOpt f =>
      cases hp : parseTaskCreate title sOpt with
      | none => simpa [stepStore, put_task, hp] using hinv
      | some tc =>
          cases hf : findTask store.tasks i with
          | none => simpa [stepStore, put_task, hp, update_task, hf] using hinv
          | some db_task =>
              cases f with
              | some msg => simpa [stepStore, put_task, hp, update_task, hf] using hinv
              | none =>
                  intro t ht
                  simp only [stepStore, put_task, hp, update_task, hf] at ht
                  rcases mem_replaceFirst ht with h' | h'
                  · exact hinv t h'
                  · rw [h']
                    exact validStatus_value tc.status
  | delete i f =>
      cases hf : findTask store.tasks i with
      | none => simpa [stepStore, delete_task, hf] using hinv
      | some db_task =>
          cases f with
          | some msg => simpa [stepStore, delete_task, hf] using hinv
          | none =>
              intro t ht
              simp only [stepStore, delete_task, hf] at ht
              exact hinv t (mem_of_mem_removeFirst ht)

theorem C7_witness :
    StatusInv { tasks := [{ id := 1, title := "a", status := "assigned" }], nextId := 2 } ∧
    StatusInv (stepStore { tasks := [{ id := 1, title := "a", status := "assigned" }], nextId := 2 }
      (Op.create "b" none none)) :=
  ⟨by decide,
   C7_status_enumeration_invariant _ (Op.create "b" none none) (by decide)⟩

/-- Claim C8: GET /get_tasks returns the stored sequence in insertion /
primary-key order, sliced by skip and limit (skip rows dropped from the
front, then at most limit rows taken), with defaults skip = 0, limit = 100
when the query parameters are omitted; the response is a bare list, with no
total-count metadata. -/
theorem C8_list_slices_in_order (store : Store) (skip limit : Nat) :
    read_tasks store skip limit = (store.tasks.drop skip).take limit ∧
    List.Sublist (read_tasks store skip limit) store.tasks ∧
    (read_tasks store skip limit).length ≤ limit ∧
    read_tasks_default store = read_tasks store 0 100 := by
  refine ⟨rfl, ?_, ?_, rfl⟩
  · exact (List.take_sublist _ _).trans (List.drop_sublist _ _)
  · exact List.length_take_le _ _

/-- Claim C9: when the storage layer raises during the delete of an existing
row, delete_task (which has no try/except) lets the exception propagate
unhandled, while create_task and update_task catch the same storage fault,
roll back, and convert it to a clean generic 500 error. -/
theorem C9_delete_fault_propagates_uncaught
    (store : Store) (tid : Nat) (task0 : TaskModel) (msg : String)
    (tc : TaskCreateSchema) (h : findTask store.tasks tid = some task0) :
    delete_task store tid (some msg) = (store, Outcome.unhandled msg) ∧
    update_task store tid tc (some msg) =
      (store, Outcome.httpError 500 ("An error occurred while updating the task: " ++ msg)) ∧
    create_task store tc (some msg) =
      (store, Outcome.httpError 500 ("An error occurred while creating the task: " ++ msg)) := by
  refine ⟨?_, ?_, rfl⟩ <;> simp [delete_task, update_task, h]

theorem C9_witness :
    delete_task { tasks := [{ id := 1, title := "a", status := "assigned" }], nextId := 2 } 1
        (some "db down") =
      ({ tasks := [{ id := 1, title := "a", status := "assigned" }], nextId := 2 },
       Outcome.unhandled "db down") ∧
    update_task { tasks := [{ id := 1, title := "a", status := "assigned" }], nextId := 2 } 1
        { title := "b", status := TaskStatus.completed } (some "db down") =
      ({ tasks := [{ id := 1, title := "a", status := "assigned" }], nextId := 2 },
       Outcome.httpError 500 ("An error occurred while updating the task: " ++ "db down")) ∧
    create_task { tasks := [{ id := 1, title := "a", status := "assigned" }], nextId := 2 }
        { title := "b", status := TaskStatus.completed } (some "db down") =
      ({ tasks := [{ id := 1, title := "a", status := "assigned" }], nextId := 2 },
       Outcome.httpError 500 ("An error occurred while creating the task: " ++ "db down")) :=
  C9_delete_fault_propagates_uncaught _ 1 { id := 1, title := "a", status := "assigned" }
    "db down" { title := "b", status := TaskStatus.completed } rfl

/-- Claim C10: a successful delete of an existing id, and likewise a
successful update of it, leave every persisted task whose id differs
untouched: such a row is in the resulting store exactly when it was in the
original store, with the same id, title and status. -/
theorem C10_delete_update_frame
    (store : Store) (tid : Nat) (tc : TaskCreateSchema) (u task0 : TaskModel)
    (h : findTask store.tasks tid = some task0) (hne : u.id ≠ tid) :
    (u ∈ (delete_task store tid none).1.tasks ↔ u ∈ store.tasks) ∧
    (u ∈ (update_task store tid tc none).1.tasks ↔ u ∈ store.tasks) := by
  constructor
  · simp only [delete_task, h]
    exact ⟨mem_of_mem_removeFirst, mem_removeFirst_of_ne hne⟩
  · simp only [update_task, h]
    constructor
    · have hvid :
          ({ id := task0.id, title := tc.title, status := tc.status.value } : TaskModel).id
            = tid := findTask_id (t := task0) h
      exact mem_of_mem_replaceFirst hvid hne
    · exact mem_replaceFirst_of_ne hne

theorem C10_witness :
    (({ id := 2, title := "b", status := "completed" } : TaskModel) ∈
        (delete_task { tasks := [{ id := 1, title := "a", status := "assigned" },
                                 { id := 2, title := "b", status := "completed" }], nextId := 3 }
          1 none).1.tasks ↔
      ({ id := 2, title := "b", status := "completed" } : TaskModel) ∈
        [({ id := 1, title := "a", status := "assigned" } : TaskModel),
         { id := 2, title := "b", status := "completed" }]) ∧
    (({ id := 2, title := "b", status := "completed" } : TaskModel) ∈
        (update_task { tasks := [{ id := 1, title := "a", status := "assigned" },
                                 { id := 2, title := "b", status := "completed" }], nextId := 3 }
          1 { title := "X", status := TaskStatus.inprogress } none).1.tasks ↔
      ({ id := 2, title := "b", status := "completed" } : TaskModel) ∈
        [({ id := 1, title := "a", status := "assigned" } : TaskModel),
         { id := 2, title := "b", status := "completed" }]) :=
  C10_delete_update_frame _ 1 { title := "X", status := TaskStatus.inprogress }
    { id := 2, title := "b", status := "completed" }
    { id := 1, title := "a", status := "assigned" } rfl (by decide)
